import Mathlib

/-!
Verification of the simulation core of the virtual society of philosophers.

This file gives a shallow embedding, in Lean 4, of the core data model and
operations of the repository (src/src/models/agent.py, essay.py, critique.py,
school.py, src/src/simulation/philosopher_model.py, school_detector.py), and
proves or refutes the frozen specification claims about them.

Modelling conventions:
- Python floats are modelled as rationals (ℚ).
- Python dict registries keyed by id are modelled as association lists in
  insertion order; insertion with an existing key replaces the stored value
  in place, as Python dict assignment does.
- Agent unique ids are modelled as Nat.  The source stores agent ids both as
  ints (mesa unique_id) and as strings (essay.author_id, critique.critic_id)
  and compares them through int(...); the embedding uses Nat uniformly.
- The persistence collaborator (Neo4jManager, an optional constructor
  argument) is modelled by a Boolean dbPresent flag: the external database
  writes themselves have no in-memory effect, but the source guards some
  in-memory mutations behind the presence of the collaborator, and the flag
  reproduces those guards exactly.
- Random draws (numpy beta / choice / dirichlet) are passed in as explicit
  arguments where an operation consumes them.
-/

namespace PhilSoc

/-- np.clip of a single component to the interval [-5, 5]
    (numpy clips below first, then above). -/
def clip5 (x : ℚ) : ℚ := min 5 (max (-5) x)

/-- PhilosopherAgent (src/src/models/agent.py): the fields of the mutable
    agent state that the core operations read or write. -/
structure PAgent where
  unique_id : Nat
  persona : String
  belief_vector : List ℚ
  influence : ℚ
  school_id : Option String
  last_activity_tick : Nat
  deriving Repr, DecidableEq

/-- agent.py, update_influence: influence = max(0.1, influence + delta). -/
def PAgent.update_influence (a : PAgent) (delta : ℚ) : PAgent :=
  { a with influence := max (1/10) (a.influence + delta) }

/-- agent.py, update_belief_vector: belief_vector += weight * influence_vector,
    then np.clip(belief_vector, -5, 5) componentwise. -/
def PAgent.update_belief_vector (a : PAgent) (influence_vector : List ℚ)
    (weight : ℚ) : PAgent :=
  { a with belief_vector :=
      (a.belief_vector.zipWith (fun b v => clip5 (b + weight * v)) influence_vector) }

/-- The 7 fixed topic strings of agent.py, select_topic. -/
def topicsList : List String :=
  ["ethics", "epistemology", "metaphysics", "aesthetics",
   "political_philosophy", "philosophy_of_mind", "logic"]

/-- agent.py, select_topic: weights = np.abs(self.belief_vector[:len(topics)]). -/
def topicWeights (belief_vector : List ℚ) : List ℚ :=
  (belief_vector.take topicsList.length).map (fun x => |x|)

/-- agent.py, select_topic: weights / np.sum(weights).  In ℚ division by a
    zero sum yields 0 for every weight (the float code produces NaN there);
    the normalisation is only meaningful when the sum is nonzero. -/
def normalizedTopicWeights (belief_vector : List ℚ) : List ℚ :=
  (topicWeights belief_vector).map (fun w => w / (topicWeights belief_vector).sum)

/-- agent.py, select_topic: np.random.choice(topics, p=weights).  The random
    choice is modelled by the chosen index k into the fixed topic list. -/
def select_topic (k : Nat) : Option String :=
  topicsList.get? k

/-- Essay (src/src/models/essay.py): the record fields the core reads/writes. -/
structure Essay where
  id : String
  author_id : Nat
  timestamp : Nat
  topic : String
  citations : List String
  citation_count : Nat
  author_influence : ℚ
  deriving Repr, DecidableEq

/-- essay.py, add_citation: citation_count += 1. -/
def Essay.add_citation (e : Essay) : Essay :=
  { e with citation_count := e.citation_count + 1 }

/-- Critique (src/src/models/critique.py). -/
structure Critique where
  id : String
  critic_id : Nat
  target_id : String
  stance : Int
  timestamp : Nat
  persuasiveness_score : ℚ
  deriving Repr, DecidableEq

/-- critique.py, update_persuasiveness: persuasiveness_score = score. -/
def Critique.update_persuasiveness (c : Critique) (score : ℚ) : Critique :=
  { c with persuasiveness_score := score }

/-- School (src/src/models/school.py). -/
structure School where
  id : String
  manifesto : String
  member_ids : List Nat
  doctrine_vector : List ℚ
  founding_tick : Nat
  deriving Repr, DecidableEq

/-- The essay registry self.essays: a Python dict keyed by essay id,
    modelled as a list in insertion order with unique ids. -/
abbrev EssayRegistry := List Essay

/-- self.essays.get(id) / id in self.essays. -/
def lookupEssay (r : EssayRegistry) (id : String) : Option Essay :=
  r.find? (fun e => e.id = id)

/-- self.essays[essay.id] = essay (dict assignment: replace if present,
    append otherwise). -/
def insertEssay (r : EssayRegistry) (e : Essay) : EssayRegistry :=
  if r.any (fun x => x.id = e.id) then
    r.map (fun x => if x.id = e.id then e else x)
  else
    r ++ [e]

/-- self.essays[cited_id].add_citation(): bump the stored record in place. -/
def bumpCitation (r : EssayRegistry) (cited_id : String) : EssayRegistry :=
  r.map (fun x => if x.id = cited_id then x.add_citation else x)

/-- philosopher_model.py, add_essay (lines 91-103).  The essay is inserted
    into the registry unconditionally; the citation-count increments sit
    inside the `if self.db_manager:` block in the source, so they run only
    when the persistence collaborator is present (dbPresent).  For each
    citation entry of the new essay, the cited essay's count is bumped only
    when the cited id is currently in the registry. -/
def add_essay (dbPresent : Bool) (essays : EssayRegistry) (e : Essay) :
    EssayRegistry :=
  let essays := insertEssay essays e
  if dbPresent then
    e.citations.foldl
      (fun acc cited_id =>
        if (lookupEssay acc cited_id).isSome then bumpCitation acc cited_id
        else acc)
      essays
  else
    essays

/-- The critique registry self.critiques, keyed by critique id. -/
abbrev CritiqueRegistry := List Critique

/-- self.critiques[critique.id] = critique. -/
def insertCritique (r : CritiqueRegistry) (c : Critique) : CritiqueRegistry :=
  if r.any (fun x => x.id = c.id) then
    r.map (fun x => if x.id = c.id then c else x)
  else
    r ++ [c]

/-- critique.update_persuasiveness(score) on the registry entry: the Python
    object is aliased between the local variable and self.critiques, so
    mutating it updates the stored record. -/
def setPersuasiveness (r : CritiqueRegistry) (id : String) (score : ℚ) :
    CritiqueRegistry :=
  r.map (fun x => if x.id = id then x.update_persuasiveness score else x)

/-- self.schedule.agents.select(lambda agent: agent.unique_id == int(i))
    followed by taking candidates[0]: first agent with the id, if any. -/
def findAgent (agents : List PAgent) (i : Nat) : Option PAgent :=
  agents.find? (fun a => a.unique_id = i)

/-- In-place mutation of the object candidates[0]: only the first agent
    with the given id is replaced (with unique ids, the only one). -/
def updateFirstAgent (agents : List PAgent) (i : Nat) (f : PAgent → PAgent) :
    List PAgent :=
  match agents with
  | [] => []
  | a :: rest =>
    if a.unique_id = i then f a :: rest
    else a :: updateFirstAgent rest i f

/-- The model-owned core state: registries and the active agent population
    (philosopher_model.py: self.essays, self.critiques, self.schools,
    self.schedule.agents). -/
structure ModelState where
  essays : EssayRegistry
  critiques : CritiqueRegistry
  schools : List School
  agents : List PAgent
  deriving Repr, DecidableEq

/-- philosopher_model.py, _process_critique_effects (lines 120-143).
    persuasiveness is the fresh np.random.beta(2, 2) draw, passed in
    explicitly.  If the target essay is absent, or the critic or the target
    essay's author is not among the active agents, nothing happens. -/
def process_critique_effects (st : ModelState) (c : Critique)
    (persuasiveness : ℚ) : ModelState :=
  match lookupEssay st.essays c.target_id with
  | none => st
  | some target_essay =>
    match findAgent st.agents c.critic_id,
          findAgent st.agents target_essay.author_id with
    | some critic, some _target_author =>
      let critiques := setPersuasiveness st.critiques c.id persuasiveness
      let influence_change := persuasiveness * (1/10) * (c.stance : ℚ)
      let agents := updateFirstAgent st.agents c.critic_id
        (fun a => a.update_influence (1/20))
      let agents := updateFirstAgent agents target_essay.author_id
        (fun a => a.update_influence influence_change)
      let agents :=
        if persuasiveness > 3/5 ∧ c.stance > 0 then
          let belief_influence := (1/10) * persuasiveness
          updateFirstAgent agents target_essay.author_id
            (fun a => a.update_belief_vector critic.belief_vector belief_influence)
        else agents
      { st with critiques := critiques, agents := agents }
    | _, _ => st

/-- philosopher_model.py, add_critique (lines 105-111): insert into the
    registry (the db write has no core effect), then process effects. -/
def add_critique (st : ModelState) (c : Critique) (persuasiveness : ℚ) :
    ModelState :=
  process_critique_effects { st with critiques := insertCritique st.critiques c }
    c persuasiveness

/-! ### School detector (src/src/simulation/school_detector.py)

The citation-topology clustering (networkx + python-louvain) and the
belief-space clustering (sklearn DBSCAN) are external library calls, not
repository code; their results enter the embedding as the two cluster lists
handed to detect_schools, exactly as _merge_clusters consumes them.  The
cosine-similarity function over the float belief vectors is likewise passed
in as sim (the similarity phase of _find_cohesive_groups only compares its
values against the 0.7 threshold). -/

/-- school_detector.py, _find_cohesive_groups inner loop: the running
    average np.mean([...]) of similarities of a candidate against the
    current group. -/
def avgSimilarity (sim : Nat → Nat → ℚ) (candidate : Nat)
    (group : List Nat) : ℚ :=
  ((group.map (fun m => sim candidate m)).sum) / (group.length : ℚ)

/-- school_detector.py, _find_cohesive_groups: one pass of the
    for-candidate loop over the remaining agents: each candidate is admitted
    into the group when its average similarity to the current group exceeds
    the threshold, otherwise it stays in the remaining pool.  Returns the
    final (group, not-admitted) pair. -/
def growGroup (sim : Nat → Nat → ℚ) (threshold : ℚ)
    (candidates : List Nat) (group : List Nat) : List Nat × List Nat :=
  candidates.foldl
    (fun gr cand =>
      if avgSimilarity sim cand gr.1 > threshold then (gr.1 ++ [cand], gr.2)
      else (gr.1, gr.2 ++ [cand]))
    (group, [])

theorem growGroup_length (sim : Nat → Nat → ℚ) (threshold : ℚ)
    (candidates : List Nat) (group rejected : List Nat) :
    (candidates.foldl
      (fun gr cand =>
        if avgSimilarity sim cand gr.1 > threshold then (gr.1 ++ [cand], gr.2)
        else (gr.1, gr.2 ++ [cand]))
      (group, rejected)).1.length +
    (candidates.foldl
      (fun gr cand =>
        if avgSimilarity sim cand gr.1 > threshold then (gr.1 ++ [cand], gr.2)
        else (gr.1, gr.2 ++ [cand]))
      (group, rejected)).2.length
      = group.length + rejected.length + candidates.length := by
  induction candidates generalizing group rejected with
  | nil => simp
  | cons c cs ih =>
    simp only [List.foldl_cons]
    by_cases h : avgSimilarity sim c group > threshold
    · simp only [if_pos h]
      rw [ih]
      simp
      omega
    · simp only [if_neg h]
      rw [ih]
      simp
      omega

theorem growGroup_fst_length_ge (sim : Nat → Nat → ℚ) (threshold : ℚ)
    (candidates : List Nat) (group rejected : List Nat) :
    group.length ≤
      (candidates.foldl
        (fun gr cand =>
          if avgSimilarity sim cand gr.1 > threshold then (gr.1 ++ [cand], gr.2)
          else (gr.1, gr.2 ++ [cand]))
        (group, rejected)).1.length := by
  induction candidates generalizing group rejected with
  | nil => simp
  | cons c cs ih =>
    simp only [List.foldl_cons]
    by_cases h : avgSimilarity sim c group > threshold
    · simp only [if_pos h]
      calc group.length ≤ (group ++ [c]).length := by simp
        _ ≤ _ := ih (group ++ [c]) rejected
    · simp only [if_neg h]
      exact ih group (rejected ++ [c])

/-- school_detector.py, _find_cohesive_groups (lines 110-139): repeatedly
    take a seed from the remaining pool, grow a group around it, keep the
    group when it reaches min_samples, otherwise release its non-seed
    members back to the pool; stop when fewer than min_samples agents
    remain.  Python iterates a set in unspecified order; the list order
    here fixes one such order (seed = head of the list). -/
def find_cohesive_groups (sim : Nat → Nat → ℚ) (min_samples : Nat)
    (threshold : ℚ) (remaining : List Nat) : List (List Nat) :=
  if remaining.length < min_samples then []
  else
    match remaining with
    | [] => []
    | seed :: rest0 =>
      let gr := growGroup sim threshold rest0 [seed]
      if gr.1.length ≥ min_samples then
        gr.1 :: find_cohesive_groups sim min_samples threshold gr.2
      else
        find_cohesive_groups sim min_samples threshold (gr.2 ++ gr.1.drop 1)
  termination_by remaining.length
  decreasing_by
  · have hlen := growGroup_length sim threshold rest0 [seed] []
    have hge := growGroup_fst_length_ge sim threshold rest0 [seed] []
    simp only [growGroup] at *
    simp at hlen hge
    simp
    omega
  · have hlen := growGroup_length sim threshold rest0 [seed] []
    have hge := growGroup_fst_length_ge sim threshold rest0 [seed] []
    simp only [growGroup] at *
    simp at hlen hge
    simp
    omega

/-- school_detector.py, _merge_clusters first loop (lines 88-94): walk the
    combined cluster dict in order; for each cluster, keep the members not
    already claimed; when at least min_samples members remain unclaimed,
    emit them as school_counter and claim them.  Returns the emitted
    groups, the final claimed set, and the final counter. -/
def mergePhase1 (min_samples : Nat) (clusters : List (String × List Nat))
    (used : List Nat) (counter : Nat) :
    List (String × List Nat) × List Nat × Nat :=
  match clusters with
  | [] => ([], used, counter)
  | cl :: rest =>
    let available := cl.2.filter (fun m => ¬ m ∈ used)
    if available.length ≥ min_samples then
      let r := mergePhase1 min_samples rest (used ++ available) (counter + 1)
      (("school_" ++ toString counter, available) :: r.1, r.2)
    else
      mergePhase1 min_samples rest used counter

/-- Numbering of the cohesive groups appended by the second phase of
    _merge_clusters: merged[f"school_\x7bcluster_counter\x7d"] = group with
    the counter advancing per appended group. -/
def numberGroups (counter : Nat) : List (List Nat) → List (String × List Nat)
  | [] => []
  | g :: gs => ("school_" ++ toString counter, g) :: numberGroups (counter + 1) gs

/-- school_detector.py, _merge_clusters (lines 75-108).  all_clusters is
    the insertion-ordered item list of the merged python dict
    (graph clusters first, then belief clusters; the "graph_" / "belief_"
    key prefixes never collide).  agent_ids are the keys of the
    belief-vector map. -/
def merge_clusters (min_samples : Nat) (sim : Nat → Nat → ℚ)
    (all_clusters : List (String × List Nat)) (agent_ids : List Nat) :
    List (String × List Nat) :=
  if all_clusters = [] then []
  else
    let p1 := mergePhase1 min_samples all_clusters [] 0
    let remaining := agent_ids.filter (fun a => ¬ a ∈ p1.2.1)
    if remaining.length ≥ min_samples then
      let cohesive := find_cohesive_groups sim min_samples (7/10) remaining
      p1.1 ++ numberGroups p1.2.2 (cohesive.filter (fun g => g.length ≥ min_samples))
    else
      p1.1

/-- school_detector.py, detect_schools (lines 14-26): short-circuit when
    fewer than min_samples agents exist, else merge the externally computed
    graph clusters and belief clusters. -/
def detect_schools (min_samples : Nat) (sim : Nat → Nat → ℚ)
    (graph_clusters belief_clusters : List (String × List Nat))
    (agent_ids : List Nat) : List (String × List Nat) :=
  if agent_ids.length < min_samples then []
  else merge_clusters min_samples sim (graph_clusters ++ belief_clusters) agent_ids

/-! ### School record operations and _detect_and_update_schools -/

/-- Componentwise sum of equal-length vectors, as np.sum over axis 0. -/
def addVec (v w : List ℚ) : List ℚ := v.zipWith (fun a b => a + b) w

/-- np.mean(member_belief_vectors, axis=0): componentwise mean. -/
def meanVectors (vs : List (List ℚ)) : List ℚ :=
  match vs with
  | [] => []
  | v :: rest => (rest.foldl addVec v).map (fun x => x / (vs.length : ℚ))

/-- school.py, update_doctrine_vector: replace the doctrine vector by the
    member mean when the member list is nonempty, else leave it. -/
def School.update_doctrine_vector (s : School) (vs : List (List ℚ)) : School :=
  if vs = [] then s else { s with doctrine_vector := meanVectors vs }

/-- school.py, generate_manifesto: fixed manifesto text per dominant topic,
    with a default for unknown topics (dict .get default). -/
def manifestoFor (topic : String) : String :=
  if topic = "ethics" then
    "We hold that moral truth emerges through rigorous examination of duty and consequence"
  else if topic = "epistemology" then
    "Knowledge must be grounded in systematic inquiry and critical reflection"
  else if topic = "metaphysics" then
    "Reality reveals itself through careful analysis of being and existence"
  else if topic = "aesthetics" then
    "Beauty and artistic value demand philosophical understanding and appreciation"
  else if topic = "political_philosophy" then
    "Just governance requires philosophical foundations and ethical principles"
  else if topic = "philosophy_of_mind" then
    "Consciousness and mental phenomena merit dedicated philosophical investigation"
  else if topic = "logic" then
    "Rational argument and valid inference form the bedrock of philosophical discourse"
  else
    "We seek truth through philosophical inquiry and debate"

/-- Stable descending insertion by weight: the new item goes before the
    first strictly lighter item, after equal-weight ones (same ordering as
    python sorted(..., key=weight, reverse=True), which is stable). -/
def insertByWeightDesc (x : String × ℚ) : List (String × ℚ) → List (String × ℚ)
  | [] => [x]
  | y :: ys => if y.2 < x.2 then x :: y :: ys else y :: insertByWeightDesc x ys

/-- Stable sort of the topic agenda by weight descending (python sorted is
    stable; modelled by a stable insertion sort). -/
def sortByWeightDesc (l : List (String × ℚ)) : List (String × ℚ) :=
  l.foldr insertByWeightDesc []

/-- school.py, generate_manifesto (lines 34-49): sort the topic agenda by
    weight descending, take the dominant topic, emit its manifesto; an
    empty agenda falls back to the ethics entry. -/
def generate_manifesto (topic_distribution : List (String × ℚ)) : String :=
  let dominant := (sortByWeightDesc topic_distribution).take 3
  match dominant.map (fun p => p.1) with
  | [] => manifestoFor "ethics"
  | t :: _ => manifestoFor t

/-- philosopher_model.py, lines 186-190: collect the belief vectors of the
    cluster members found among the active agents, in member order. -/
def schoolMemberBeliefs (agents : List PAgent) (member_ids : List Nat) :
    List (List ℚ) :=
  member_ids.filterMap (fun mid => (findAgent agents mid).map PAgent.belief_vector)

/-- philosopher_model.py, lines 206-213: for each member of a detected
    cluster, set the agent's school_id to the school id (skipping the write
    when it already equals it; the guarded write equals the unconditional
    one in memory). -/
def assignMembers (agents : List PAgent) (school_id : String)
    (member_ids : List Nat) : List PAgent :=
  member_ids.foldl
    (fun ags mid =>
      updateFirstAgent ags mid
        (fun a => if a.school_id = some school_id then a
                  else { a with school_id := some school_id }))
    agents

/-- philosopher_model.py, lines 185-204: construction of a newly detected
    school: School(id, manifesto="", founding_tick), member_ids set to the
    detected members, doctrine vector updated from the found members'
    beliefs, manifesto generated from the topic agenda. -/
def mkSchool (tick : Nat) (topic_agenda : List (String × ℚ))
    (agents : List PAgent) (cl : String × List Nat) : School :=
  let member_beliefs := schoolMemberBeliefs agents cl.2
  let school : School :=
    { id := "school_" ++ cl.1, manifesto := "", member_ids := cl.2,
      doctrine_vector := List.replicate 50 0, founding_tick := tick }
  let school := school.update_doctrine_vector member_beliefs
  { school with manifesto := generate_manifesto topic_agenda }

/-- One iteration of the cluster loop of _detect_and_update_schools
    (lines 180-213), acting on the accumulated
    (schools, agents, new_schools) state. -/
def schoolClusterStep (tick : Nat) (topic_agenda : List (String × ℚ))
    (acc : List School × List PAgent × List String)
    (cl : String × List Nat) : List School × List PAgent × List String :=
  if cl.2.length ≥ 3 then
    let school_id := "school_" ++ cl.1
    let new_schools := acc.2.2 ++ [school_id]
    let schools :=
      if acc.1.any (fun s => s.id = school_id) then acc.1
      else acc.1 ++ [mkSchool tick topic_agenda acc.2.1 cl]
    let agents := assignMembers acc.2.1 school_id cl.2
    (schools, agents, new_schools)
  else acc

/-- philosopher_model.py, _detect_and_update_schools (lines 167-217).
    school_clusters is the detection result (detect_schools output); the
    loop is folded over its items in dict order.  A school id not already
    present in the registry is created with the detected membership; an id
    already present is left untouched (only its members' school_id fields
    are reassigned).  Afterwards, every school id that existed before the
    call and is absent from new_schools is deleted from the registry. -/
def detect_and_update_schools (st : ModelState)
    (school_clusters : List (String × List Nat)) (tick : Nat)
    (topic_agenda : List (String × ℚ)) : ModelState :=
  if st.agents.length < 3 then st
  else
    let existing_schools := st.schools.map (fun s => s.id)
    let step := school_clusters.foldl (schoolClusterStep tick topic_agenda)
      (st.schools, st.agents, [])
    let schools := step.1.filter
      (fun s => ¬ (s.id ∈ existing_schools ∧ ¬ s.id ∈ step.2.2))
    { st with schools := schools, agents := step.2.1 }

/-! ## Theorems -/

theorem foldl_update_influence_ge (ds : List ℚ) (a : PAgent)
    (h : (1 : ℚ)/10 ≤ a.influence) :
    (1 : ℚ)/10 ≤ (ds.foldl PAgent.update_influence a).influence := by
  induction ds generalizing a with
  | nil => exact h
  | cons d ds ih =>
    simp only [List.foldl_cons]
    exact ih _ (le_max_left _ _)

/-- Claim C7: update_influence sets influence to max(0.1, influence + delta);
    after any nonempty sequence of updates the influence is at least 0.1,
    and there is no upper ceiling (any bound is exceeded by some delta). -/
theorem influence_floor (a : PAgent) (deltas : List ℚ) (h : deltas ≠ []) :
    (1 : ℚ)/10 ≤ (deltas.foldl PAgent.update_influence a).influence ∧
    (∀ d : ℚ, (a.update_influence d).influence = max (1/10) (a.influence + d)) ∧
    (∀ M : ℚ, ∃ d : ℚ, M < (a.update_influence d).influence) := by
  refine ⟨?_, fun d => rfl, fun M => ?_⟩
  · match deltas with
    | [] => exact absurd rfl h
    | d :: ds =>
      simp only [List.foldl_cons]
      exact foldl_update_influence_ge ds _ (le_max_left _ _)
  · refine ⟨M + 1 - a.influence, ?_⟩
    simp only [PAgent.update_influence, lt_max_iff]
    right
    linarith

/-- Sample agent used by concrete witnesses. -/
def agentW : PAgent :=
  { unique_id := 1, persona := "Kantian", belief_vector := [0, 0, 0, 0, 0, 0, 0],
    influence := 1, school_id := none, last_activity_tick := 0 }

/-- Witness for C7 at a concrete input: a single huge negative delta still
    leaves the influence at the 0.1 floor. -/
theorem influence_floor_witness :
    ([(-100 : ℚ)] ≠ []) ∧
    (1 : ℚ)/10 ≤ (([(-100 : ℚ)]).foldl PAgent.update_influence agentW).influence :=
  ⟨by simp, (influence_floor agentW [(-100 : ℚ)] (by simp)).1⟩

theorem mem_zipWith_exists {α : Type} {f : α → α → α} :
    ∀ {l₁ l₂ : List α} {x : α}, x ∈ List.zipWith f l₁ l₂ →
      ∃ a b, x = f a b := by
  intro l₁
  induction l₁ with
  | nil => intro l₂ x hx; simp at hx
  | cons a t ih =>
    intro l₂ x hx
    cases l₂ with
    | nil => simp at hx
    | cons b t₂ =>
      simp only [List.zipWith_cons_cons, List.mem_cons] at hx
      rcases hx with h | h
      · exact ⟨a, b, h⟩
      · exact ih h

theorem clip5_bounds (y : ℚ) : -5 ≤ clip5 y ∧ clip5 y ≤ 5 := by
  constructor
  · exact le_min (by norm_num) (le_max_left _ _)
  · exact min_le_left _ _

/-- Claim C8: update_belief_vector adds weight * external componentwise and
    clips each component to [-5, 5]; afterwards every component of the
    belief vector lies within [-5, 5]. -/
theorem belief_bounds (a : PAgent) (v : List ℚ) (w : ℚ) :
    (a.update_belief_vector v w).belief_vector
      = a.belief_vector.zipWith (fun b e => clip5 (b + w * e)) v ∧
    ∀ x ∈ (a.update_belief_vector v w).belief_vector, -5 ≤ x ∧ x ≤ 5 := by
  refine ⟨rfl, fun x hx => ?_⟩
  simp only [PAgent.update_belief_vector] at hx
  obtain ⟨b, e, rfl⟩ := mem_zipWith_exists hx
  exact clip5_bounds _

/-- Witness for C8 at a concrete input: the first updated component (a raw
    value of 10000 before clipping) ends up inside [-5, 5]. -/
theorem belief_bounds_witness :
    -5 ≤ clip5 (0 + 100 * 100) ∧ clip5 (0 + 100 * 100) ≤ 5 :=
  (belief_bounds agentW [100, 0, 0, 0, 0, 0, 0] 100).2
    (clip5 (0 + 100 * 100)) (List.mem_cons_self _ _)

theorem sum_map_abs_nonneg (l : List ℚ) : 0 ≤ (l.map (fun x => |x|)).sum := by
  apply List.sum_nonneg
  intro y hy
  obtain ⟨x, _, rfl⟩ := List.mem_map.1 hy
  exact abs_nonneg x

theorem sum_map_abs_pos (l : List ℚ) (h : ∃ x ∈ l, x ≠ 0) :
    0 < (l.map (fun x => |x|)).sum := by
  obtain ⟨x, hx, hne⟩ := h
  induction l with
  | nil => simp at hx
  | cons a t ih =>
    simp only [List.map_cons, List.sum_cons]
    rcases List.mem_cons.1 hx with rfl | hx2
    · have h1 : 0 < |x| := abs_pos.2 hne
      have h2 : 0 ≤ (t.map (fun x => |x|)).sum := sum_map_abs_nonneg t
      linarith
    · have h1 : 0 < (t.map (fun x => |x|)).sum := ih hx2
      have h2 : 0 ≤ |a| := abs_nonneg a
      linarith

/-- Claim C9: with at least one nonzero component among the first 7, the
    topic weights have positive sum, the normalized weights sum to 1, and
    any selected index yields one of the 7 fixed topic strings; with all of
    the first 7 components zero, the normalizing sum is 0 and the
    normalization divides by zero. -/
theorem select_topic_spec (bv : List ℚ) :
    ((∃ x ∈ bv.take topicsList.length, x ≠ 0) →
       0 < (topicWeights bv).sum ∧
       (normalizedTopicWeights bv).sum = 1 ∧
       ∀ k, k < topicsList.length →
         ∃ t, select_topic k = some t ∧ t ∈ topicsList) ∧
    ((∀ x ∈ bv.take topicsList.length, x = 0) → (topicWeights bv).sum = 0) := by
  constructor
  · intro h
    have hpos : 0 < (topicWeights bv).sum := sum_map_abs_pos _ h
    refine ⟨hpos, ?_, ?_⟩
    · have hne : (topicWeights bv).sum ≠ 0 := ne_of_gt hpos
      simp only [normalizedTopicWeights, div_eq_mul_inv,
        List.sum_map_mul_right, List.map_id']
      rw [mul_inv_cancel₀ hne]
    · intro k hk
      have hk7 : k < 7 := by simpa [topicsList] using hk
      interval_cases k <;> exact ⟨_, rfl, by simp [topicsList]⟩
  · intro h
    apply List.sum_eq_zero
    intro y hy
    obtain ⟨x, hx, rfl⟩ := List.mem_map.1 hy
    rw [h x hx]
    simp

/-- Witness for C9 at a concrete belief vector with a single nonzero
    leading component. -/
theorem select_topic_spec_witness :
    0 < (topicWeights [1, 0, 0, 0, 0, 0, 0]).sum ∧
    (normalizedTopicWeights [1, 0, 0, 0, 0, 0, 0]).sum = 1 := by
  have h := (select_topic_spec [1, 0, 0, 0, 0, 0, 0]).1
    ⟨1, by simp [topicsList], one_ne_zero⟩
  exact ⟨h.1, h.2.1⟩

/-- Essay A of the citation scenario: no citations. -/
def essayA : Essay :=
  { id := "A", author_id := 1, timestamp := 0, topic := "ethics",
    citations := [], citation_count := 0, author_influence := 1 }

/-- Essay B of the citation scenario: no citations. -/
def essayB : Essay :=
  { id := "B", author_id := 2, timestamp := 0, topic := "logic",
    citations := [], citation_count := 0, author_influence := 1 }

/-- Essay C of the citation scenario: cites A and B. -/
def essayC : Essay :=
  { id := "C", author_id := 3, timestamp := 1, topic := "ethics",
    citations := ["A", "B"], citation_count := 0, author_influence := 1 }

/-- Claim C1 evaluated at the failing input: without the persistence
    collaborator (db_manager is None), registering essay C citing essays A
    and B leaves both citation counts at 0, because the in-memory
    citation-count increment of add_essay sits inside the
    `if self.db_manager:` block; with the collaborator present the same
    registration yields the counts 1 and 1 that the claim asserts
    unconditionally. -/
theorem add_essay_citation_count_bug :
    (lookupEssay
        (add_essay false (add_essay false (add_essay false [] essayA) essayB)
          essayC) "A").map Essay.citation_count = some 0 ∧
    (lookupEssay
        (add_essay false (add_essay false (add_essay false [] essayA) essayB)
          essayC) "B").map Essay.citation_count = some 0 ∧
    (lookupEssay
        (add_essay true (add_essay true (add_essay true [] essayA) essayB)
          essayC) "A").map Essay.citation_count = some 1 ∧
    (lookupEssay
        (add_essay true (add_essay true (add_essay true [] essayA) essayB)
          essayC) "B").map Essay.citation_count = some 1 :=
  ⟨rfl, rfl, rfl, rfl⟩

/-- Claim C2 evaluated at a divergence point: the same add_essay call
    produces different in-memory essay registries (different
    citation_count for the cited essay A) with and without the persistence
    collaborator, so the collaborator is not a pure observer of core
    state. -/
theorem persistence_observer_bug :
    (lookupEssay (add_essay true [essayA] essayC) "A").map Essay.citation_count
      = some 1 ∧
    (lookupEssay (add_essay false [essayA] essayC) "A").map Essay.citation_count
      = some 0 ∧
    add_essay true [essayA] essayC ≠ add_essay false [essayA] essayC := by
  refine ⟨rfl, rfl, fun h => ?_⟩
  have h2 := congrArg
    (fun r => (lookupEssay r "A").map Essay.citation_count) h
  have h3 : some 1 = some 0 := h2
  exact absurd (Option.some.inj h3) one_ne_zero

theorem mem_insertCritique_self (r : CritiqueRegistry) (c : Critique) :
    c ∈ insertCritique r c := by
  unfold insertCritique
  by_cases h : r.any (fun x => x.id = c.id)
  · simp only [if_pos h]
    simp only [List.any_eq_true, decide_eq_true_eq] at h
    obtain ⟨x, hx, hid⟩ := h
    exact List.mem_map.2 ⟨x, hx, by simp [hid]⟩
  · rw [if_neg h]
    simp

/-- Claim C5: adding a critique whose critic, or whose target essay's
    author, is not among the active agents changes no agent, no essay and
    no school, while the critique itself stays inserted in the critique
    registry (the effect processing is a silent no-op). -/
theorem critique_missing_entity_noop (st : ModelState) (c : Critique) (p : ℚ)
    (h : findAgent st.agents c.critic_id = none ∨
         ∃ te, lookupEssay st.essays c.target_id = some te ∧
               findAgent st.agents te.author_id = none) :
    (add_critique st c p).agents = st.agents ∧
    (add_critique st c p).essays = st.essays ∧
    (add_critique st c p).schools = st.schools ∧
    c ∈ (add_critique st c p).critiques := by
  unfold add_critique process_critique_effects
  cases hE : lookupEssay st.essays c.target_id with
  | none =>
    simp [hE, mem_insertCritique_self]
  | some te =>
    rcases h with hcr | ⟨te2, hte2, hau⟩
    · cases hau2 : findAgent st.agents te.author_id with
      | none => simp [hE, hcr, hau2, mem_insertCritique_self]
      | some au => simp [hE, hcr, hau2, mem_insertCritique_self]
    · rw [hE] at hte2
      injection hte2 with h2
      subst h2
      cases hcr2 : findAgent st.agents c.critic_id with
      | none => simp [hE, hcr2, hau, mem_insertCritique_self]
      | some cr => simp [hE, hcr2, hau, mem_insertCritique_self]

/-- Concrete critique used by witnesses. -/
def critiqueW : Critique :=
  { id := "c1", critic_id := 1, target_id := "E", stance := 1,
    timestamp := 0, persuasiveness_score := 0 }

/-- Witness for C5 at a concrete input: an empty population, so the critic
    lookup fails and the critique is inserted with no other effect. -/
theorem critique_missing_entity_noop_witness :
    findAgent (ModelState.mk [] [] [] []).agents critiqueW.critic_id = none ∧
    critiqueW ∈ (add_critique (ModelState.mk [] [] [] []) critiqueW (1/2)).critiques :=
  ⟨rfl, (critique_missing_entity_noop (ModelState.mk [] [] [] []) critiqueW (1/2)
    (Or.inl rfl)).2.2.2⟩

theorem findAgent_updateFirstAgent_ne (ags : List PAgent) (i j : Nat)
    (f : PAgent → PAgent) (hid : ∀ a, (f a).unique_id = a.unique_id)
    (hne : i ≠ j) :
    findAgent (updateFirstAgent ags j f) i = findAgent ags i := by
  induction ags with
  | nil => rfl
  | cons a rest ih =>
    simp only [updateFirstAgent]
    by_cases h : a.unique_id = j
    · rw [if_pos h]
      have h1 : ((f a).unique_id = i) = False := by
        simp only [hid a, h, eq_iff_iff, iff_false]
        exact fun hh => hne (hh ▸ rfl)
      have h2 : (a.unique_id = i) = False := by
        simp only [h, eq_iff_iff, iff_false]
        exact fun hh => hne (hh ▸ rfl)
      simp [findAgent, List.find?_cons, h1, h2]
    · rw [if_neg h]
      by_cases h3 : a.unique_id = i
      · simp [findAgent, List.find?_cons, h3]
      · simp only [findAgent, List.find?_cons] at ih ⊢
        simp only [h3, decide_False]
        exact ih

theorem findAgent_updateFirstAgent_eq (ags : List PAgent) (i : Nat)
    (f : PAgent → PAgent) (hid : ∀ a, (f a).unique_id = a.unique_id) :
    findAgent (updateFirstAgent ags i f) i = (findAgent ags i).map f := by
  induction ags with
  | nil => rfl
  | cons a rest ih =>
    simp only [updateFirstAgent]
    by_cases h : a.unique_id = i
    · rw [if_pos h]
      simp [findAgent, List.find?_cons, hid a, h]
    · rw [if_neg h]
      simp only [findAgent, List.find?_cons] at ih ⊢
      simp only [h, decide_False]
      exact ih

theorem update_influence_unique_id (a : PAgent) (d : ℚ) :
    (a.update_influence d).unique_id = a.unique_id := rfl

theorem update_belief_vector_unique_id (a : PAgent) (v : List ℚ) (w : ℚ) :
    (a.update_belief_vector v w).unique_id = a.unique_id := rfl

theorem setPersuasiveness_score (r : CritiqueRegistry) (id : String) (p : ℚ) :
    ∀ x ∈ setPersuasiveness r id p, x.id = id → x.persuasiveness_score = p := by
  intro x hx hid
  obtain ⟨y, hy, hxy⟩ := List.mem_map.1 hx
  by_cases h : y.id = id
  · rw [← hxy, if_pos h]
    rfl
  · rw [← hxy, if_neg h] at hid ⊢
    exact absurd hid h

/-- Claim C6: with critic and target author both active (and distinct), the
    fresh Beta(2,2) draw p overwrites the stored persuasiveness of the
    critique, the critic's influence is clamped at +0.05, the target
    author's influence is clamped at p * 0.1 * stance, and the author's
    belief vector is nudged toward the critic's with weight 0.1 * p exactly
    when p > 0.6 and stance > 0. -/
theorem critique_effects_formula (st : ModelState) (c : Critique) (p : ℚ)
    (te : Essay) (critic author : PAgent)
    (hte : lookupEssay st.essays c.target_id = some te)
    (hcr : findAgent st.agents c.critic_id = some critic)
    (hau : findAgent st.agents te.author_id = some author)
    (hne : c.critic_id ≠ te.author_id) :
    (∀ x ∈ (add_critique st c p).critiques,
       x.id = c.id → x.persuasiveness_score = p) ∧
    findAgent (add_critique st c p).agents c.critic_id
      = some (critic.update_influence (1/20)) ∧
    findAgent (add_critique st c p).agents te.author_id
      = some (if p > 3/5 ∧ c.stance > 0 then
          (author.update_influence (p * (1/10) * (c.stance : ℚ))).update_belief_vector
            critic.belief_vector ((1/10) * p)
        else author.update_influence (p * (1/10) * (c.stance : ℚ))) := by
  unfold add_critique process_critique_effects
  simp only [hte, hcr, hau]
  refine ⟨setPersuasiveness_score _ _ _, ?_, ?_⟩
  · by_cases hcond : p > 3/5 ∧ c.stance > 0
    · rw [if_pos hcond]
      rw [findAgent_updateFirstAgent_ne _ _ _ _
        (fun a => update_belief_vector_unique_id a _ _) hne]
      rw [findAgent_updateFirstAgent_ne _ _ _ _
        (fun a => update_influence_unique_id a _) hne]
      rw [findAgent_updateFirstAgent_eq _ _ _
        (fun a => update_influence_unique_id a _)]
      rw [hcr]
      rfl
    · rw [if_neg hcond]
      rw [findAgent_updateFirstAgent_ne _ _ _ _
        (fun a => update_influence_unique_id a _) hne]
      rw [findAgent_updateFirstAgent_eq _ _ _
        (fun a => update_influence_unique_id a _)]
      rw [hcr]
      rfl
  · by_cases hcond : p > 3/5 ∧ c.stance > 0
    · rw [if_pos hcond, if_pos hcond]
      rw [findAgent_updateFirstAgent_eq _ _ _
        (fun a => update_belief_vector_unique_id a _ _)]
      rw [findAgent_updateFirstAgent_eq _ _ _
        (fun a => update_influence_unique_id a _)]
      rw [findAgent_updateFirstAgent_ne _ _ _ _
        (fun a => update_influence_unique_id a _) (Ne.symm hne)]
      rw [hau]
      rfl
    · rw [if_neg hcond, if_neg hcond]
      rw [findAgent_updateFirstAgent_eq _ _ _
        (fun a => update_influence_unique_id a _)]
      rw [findAgent_updateFirstAgent_ne _ _ _ _
        (fun a => update_influence_unique_id a _) (Ne.symm hne)]
      rw [hau]
      rfl

/-- Concrete critic agent for the C6 witness. -/
def agentX1 : PAgent :=
  { unique_id := 1, persona := "Humean", belief_vector := [1, 0],
    influence := 1, school_id := none, last_activity_tick := 0 }

/-- Concrete target author for the C6 witness. -/
def agentX2 : PAgent :=
  { unique_id := 2, persona := "Stoic", belief_vector := [0, 1],
    influence := 1, school_id := none, last_activity_tick := 0 }

/-- Concrete target essay for the C6 witness, authored by agent 2. -/
def essayE : Essay :=
  { id := "E", author_id := 2, timestamp := 0, topic := "logic",
    citations := [], citation_count := 0, author_influence := 1 }

/-- Concrete critique for the C6 witness: critic 1 supports essay E. -/
def critiqueX : Critique :=
  { id := "c2", critic_id := 1, target_id := "E", stance := 1,
    timestamp := 0, persuasiveness_score := 0 }

/-- Concrete model state for the C6 witness. -/
def stFX : ModelState :=
  { essays := [essayE], critiques := [], schools := [],
    agents := [agentX1, agentX2] }

/-- Witness for C6 at a concrete input with persuasiveness 4/5 and stance
    +1: the critic ends with influence max(0.1, 1 + 0.05). -/
theorem critique_effects_formula_witness :
    lookupEssay stFX.essays critiqueX.target_id = some essayE ∧
    findAgent (add_critique stFX critiqueX (4/5)).agents critiqueX.critic_id
      = some (agentX1.update_influence (1/20)) :=
  ⟨rfl, (critique_effects_formula stFX critiqueX (4/5) essayE agentX1 agentX2
    rfl rfl rfl (by decide)).2.1⟩

/-! ### School update lemmas (C3, C4, C10) -/

/-- The prefixed school ids of the clusters that pass the size gate: the
    school ids a detection result can create or reassign agents to. -/
def detectedSchoolIds (clusters : List (String × List Nat)) : List String :=
  (clusters.filter (fun cl => cl.2.length ≥ 3)).map (fun cl => "school_" ++ cl.1)

theorem update_doctrine_vector_id (s : School) (vs : List (List ℚ)) :
    (s.update_doctrine_vector vs).id = s.id := by
  unfold School.update_doctrine_vector
  split <;> rfl

theorem update_doctrine_vector_member_ids (s : School) (vs : List (List ℚ)) :
    (s.update_doctrine_vector vs).member_ids = s.member_ids := by
  unfold School.update_doctrine_vector
  split <;> rfl

theorem mkSchool_id (tick : Nat) (agenda : List (String × ℚ))
    (agents : List PAgent) (cl : String × List Nat) :
    (mkSchool tick agenda agents cl).id = "school_" ++ cl.1 := by
  unfold mkSchool
  simp [update_doctrine_vector_id]

theorem mkSchool_member_ids (tick : Nat) (agenda : List (String × ℚ))
    (agents : List PAgent) (cl : String × List Nat) :
    (mkSchool tick agenda agents cl).member_ids = cl.2 := by
  unfold mkSchool
  simp [update_doctrine_vector_member_ids]

theorem schoolClusterStep_schools (tick : Nat) (agenda : List (String × ℚ))
    (acc : List School × List PAgent × List String) (cl : String × List Nat) :
    (schoolClusterStep tick agenda acc cl).1 = acc.1 ∨
    ∃ s : School, (schoolClusterStep tick agenda acc cl).1 = acc.1 ++ [s] ∧
      s.id = "school_" ++ cl.1 ∧ s.member_ids = cl.2 ∧ 3 ≤ cl.2.length := by
  unfold schoolClusterStep
  by_cases hlen : cl.2.length ≥ 3
  · rw [if_pos hlen]
    by_cases hany : acc.1.any (fun s => s.id = "school_" ++ cl.1)
    · left
      simp [hany]
    · right
      refine ⟨mkSchool tick agenda acc.2.1 cl, ?_, mkSchool_id _ _ _ _,
        mkSchool_member_ids _ _ _ _, hlen⟩
      simp [hany]
  · rw [if_neg hlen]
    exact Or.inl rfl

theorem schoolClusterStep_creates (tick : Nat) (agenda : List (String × ℚ))
    (acc : List School × List PAgent × List String) (cl : String × List Nat)
    (hlen : 3 ≤ cl.2.length)
    (hnone : ∀ s ∈ acc.1, s.id ≠ "school_" ++ cl.1) :
    (schoolClusterStep tick agenda acc cl).1
      = acc.1 ++ [mkSchool tick agenda acc.2.1 cl] := by
  unfold schoolClusterStep
  rw [if_pos hlen]
  have hany : acc.1.any (fun s => s.id = "school_" ++ cl.1) = false := by
    rw [List.any_eq_false]
    intro s hs
    simpa using hnone s hs
  simp [hany]

theorem schoolClusterStep_new_schools (tick : Nat) (agenda : List (String × ℚ))
    (acc : List School × List PAgent × List String) (cl : String × List Nat) :
    (schoolClusterStep tick agenda acc cl).2.2
      = if cl.2.length ≥ 3 then acc.2.2 ++ ["school_" ++ cl.1] else acc.2.2 := by
  unfold schoolClusterStep
  by_cases hlen : cl.2.length ≥ 3
  · rw [if_pos hlen, if_pos hlen]
  · rw [if_neg hlen, if_neg hlen]

theorem loop_schools_decomp (tick : Nat) (agenda : List (String × ℚ)) :
    ∀ (cs : List (String × List Nat))
      (acc : List School × List PAgent × List String),
    ∃ created : List School,
      (List.foldl (schoolClusterStep tick agenda) acc cs).1 = acc.1 ++ created ∧
      ∀ s ∈ created, ∃ cl ∈ cs, 3 ≤ cl.2.length ∧
        s.id = "school_" ++ cl.1 ∧ s.member_ids = cl.2 := by
  intro cs
  induction cs with
  | nil => exact fun acc => ⟨[], by simp, by simp⟩
  | cons cl rest ih =>
    intro acc
    simp only [List.foldl_cons]
    obtain ⟨created, heq, hprop⟩ := ih (schoolClusterStep tick agenda acc cl)
    rcases schoolClusterStep_schools tick agenda acc cl with h | ⟨s, hs, hid, hmem, hlen⟩
    · refine ⟨created, by rw [heq, h], fun s hs => ?_⟩
      obtain ⟨cl2, hcl2, h2⟩ := hprop s hs
      exact ⟨cl2, List.mem_cons_of_mem _ hcl2, h2⟩
    · refine ⟨s :: created, ?_, ?_⟩
      · rw [heq, hs, List.append_assoc]
        rfl
      · intro s2 hs2
        rcases List.mem_cons.1 hs2 with rfl | hs2
        · exact ⟨cl, List.mem_cons_self _ _, hlen, hid, hmem⟩
        · obtain ⟨cl2, hcl2, h2⟩ := hprop s2 hs2
          exact ⟨cl2, List.mem_cons_of_mem _ hcl2, h2⟩

theorem loop_new_schools (tick : Nat) (agenda : List (String × ℚ)) :
    ∀ (cs : List (String × List Nat))
      (acc : List School × List PAgent × List String),
    (List.foldl (schoolClusterStep tick agenda) acc cs).2.2
      = acc.2.2 ++ (cs.filter (fun cl => cl.2.length ≥ 3)).map
          (fun cl => "school_" ++ cl.1) := by
  intro cs
  induction cs with
  | nil => simp
  | cons cl rest ih =>
    intro acc
    simp only [List.foldl_cons]
    rw [ih]
    rw [schoolClusterStep_new_schools]
    by_cases hlen : cl.2.length ≥ 3
    · rw [if_pos hlen]
      simp [List.filter_cons, hlen]
    · rw [if_neg hlen]
      simp [List.filter_cons, hlen]

theorem loop_schools_mem (tick : Nat) (agenda : List (String × ℚ))
    (cs : List (String × List Nat))
    (acc : List School × List PAgent × List String) :
    ∀ s ∈ acc.1, s ∈ (List.foldl (schoolClusterStep tick agenda) acc cs).1 := by
  intro s hs
  obtain ⟨created, heq, _⟩ := loop_schools_decomp tick agenda cs acc
  rw [heq]
  exact List.mem_append_left _ hs

theorem loop_creates (tick : Nat) (agenda : List (String × ℚ)) :
    ∀ (cs : List (String × List Nat))
      (acc : List School × List PAgent × List String)
      (cl : String × List Nat),
    cl ∈ cs → 3 ≤ cl.2.length →
    (cs.map (fun c => "school_" ++ c.1)).Nodup →
    (∀ s ∈ acc.1, s.id ≠ "school_" ++ cl.1) →
    ∃ s ∈ (List.foldl (schoolClusterStep tick agenda) acc cs).1,
      s.id = "school_" ++ cl.1 ∧ s.member_ids = cl.2 := by
  intro cs
  induction cs with
  | nil => intro acc cl hmem; simp at hmem
  | cons cl1 rest ih =>
    intro acc cl hmem hlen hnodup hnot
    simp only [List.foldl_cons]
    rcases List.mem_cons.1 hmem with rfl | hmem2
    · have hstep := schoolClusterStep_creates tick agenda acc cl hlen hnot
      refine ⟨mkSchool tick agenda acc.2.1 cl, ?_,
        mkSchool_id _ _ _ _, mkSchool_member_ids _ _ _ _⟩
      apply loop_schools_mem
      rw [hstep]
      exact List.mem_append_right _ (List.mem_singleton_self _)
    · have hneq : "school_" ++ cl1.1 ≠ "school_" ++ cl.1 := by
        simp only [List.map_cons, List.nodup_cons] at hnodup
        intro hcontra
        exact hnodup.1 (hcontra ▸ List.mem_map_of_mem _ hmem2)
      have hnot2 : ∀ s ∈ (schoolClusterStep tick agenda acc cl1).1,
          s.id ≠ "school_" ++ cl.1 := by
        intro s hs
        rcases schoolClusterStep_schools tick agenda acc cl1 with
          heq | ⟨s2, heq, hid, _, _⟩
        · exact hnot s (heq ▸ hs)
        · rw [heq] at hs
          rcases List.mem_append.1 hs with hs2 | hs2
          · exact hnot s hs2
          · rw [List.mem_singleton.1 hs2, hid]
            exact hneq
      have hnodup2 : (rest.map (fun c => "school_" ++ c.1)).Nodup := by
        simp only [List.map_cons, List.nodup_cons] at hnodup
        exact hnodup.2
      exact ih (schoolClusterStep tick agenda acc cl1) cl hmem2 hlen hnodup2 hnot2

theorem detect_and_update_schools_schools_eq (st : ModelState)
    (cs : List (String × List Nat)) (tick : Nat)
    (agenda : List (String × ℚ)) (h3 : ¬ st.agents.length < 3) :
    (detect_and_update_schools st cs tick agenda).schools
      = (List.foldl (schoolClusterStep tick agenda)
          (st.schools, st.agents, []) cs).1.filter
          (fun s => ¬ (s.id ∈ st.schools.map (fun s => s.id) ∧
            ¬ s.id ∈ (List.foldl (schoolClusterStep tick agenda)
              (st.schools, st.agents, []) cs).2.2)) := by
  unfold detect_and_update_schools
  rw [if_neg h3]

theorem detect_and_update_schools_agents_eq (st : ModelState)
    (cs : List (String × List Nat)) (tick : Nat)
    (agenda : List (String × ℚ)) (h3 : ¬ st.agents.length < 3) :
    (detect_and_update_schools st cs tick agenda).agents
      = (List.foldl (schoolClusterStep tick agenda)
          (st.schools, st.agents, []) cs).2.1 := by
  unfold detect_and_update_schools
  rw [if_neg h3]

theorem mem_detectedSchoolIds (cs : List (String × List Nat))
    (cl : String × List Nat) (hmem : cl ∈ cs) (hlen : 3 ≤ cl.2.length) :
    "school_" ++ cl.1 ∈ detectedSchoolIds cs := by
  unfold detectedSchoolIds
  exact List.mem_map_of_mem _ (List.mem_filter.2 ⟨hmem, by simpa using hlen⟩)

/-- Claim C3 (amended): after a detection cycle, every school whose id does
    not reappear in the detection result is deleted; a detected school id
    not already in the registry is created with exactly the detected
    membership; but a school whose id was already present is retained with
    its previous record unchanged — its member list is NOT replaced. -/
theorem schools_recompute_amended (st : ModelState)
    (cs : List (String × List Nat)) (tick : Nat) (agenda : List (String × ℚ))
    (h3 : 3 ≤ st.agents.length)
    (hnodup : (cs.map (fun c => "school_" ++ c.1)).Nodup) :
    (∀ s ∈ st.schools, ¬ s.id ∈ detectedSchoolIds cs →
       ∀ s2 ∈ (detect_and_update_schools st cs tick agenda).schools,
         s2.id ≠ s.id) ∧
    (∀ s ∈ st.schools, s.id ∈ detectedSchoolIds cs →
       s ∈ (detect_and_update_schools st cs tick agenda).schools) ∧
    (∀ cl ∈ cs, 3 ≤ cl.2.length →
       (∀ s ∈ st.schools, s.id ≠ "school_" ++ cl.1) →
       ∃ s2 ∈ (detect_and_update_schools st cs tick agenda).schools,
         s2.id = "school_" ++ cl.1 ∧ s2.member_ids = cl.2) := by
  have h3n : ¬ st.agents.length < 3 := not_lt.2 h3
  have hschools := detect_and_update_schools_schools_eq st cs tick agenda h3n
  have hnew : (List.foldl (schoolClusterStep tick agenda)
      (st.schools, st.agents, []) cs).2.2 = detectedSchoolIds cs := by
    rw [loop_new_schools]
    unfold detectedSchoolIds
    simp
  have hmemres : ∀ s2 : School,
      s2 ∈ (detect_and_update_schools st cs tick agenda).schools ↔
      (s2 ∈ (List.foldl (schoolClusterStep tick agenda)
          (st.schools, st.agents, []) cs).1 ∧
        (s2.id ∈ st.schools.map (fun s => s.id) →
          s2.id ∈ detectedSchoolIds cs)) := by
    intro s2
    rw [hschools, List.mem_filter, hnew]
    simp only [decide_eq_true_eq, not_and, not_not]
  refine ⟨?_, ?_, ?_⟩
  · intro s hs hnotnew s2 hs2 hideq
    obtain ⟨hmem1, himp⟩ := (hmemres s2).1 hs2
    obtain ⟨created, heq, hprop⟩ :=
      loop_schools_decomp tick agenda cs (st.schools, st.agents, [])
    rw [heq] at hmem1
    rcases List.mem_append.1 hmem1 with hm | hm
    · have : s2.id ∈ st.schools.map (fun s => s.id) :=
        List.mem_map_of_mem _ hm
      exact hnotnew (hideq ▸ himp this)
    · obtain ⟨cl, hcl, hlen, hid, _⟩ := hprop s2 hm
      have : s2.id ∈ detectedSchoolIds cs :=
        hid ▸ mem_detectedSchoolIds cs cl hcl hlen
      exact hnotnew (hideq ▸ this)
  · intro s hs hid
    refine (hmemres s).2 ⟨?_, fun _ => hid⟩
    exact loop_schools_mem tick agenda cs (st.schools, st.agents, []) s hs
  · intro cl hcl hlen hnot
    obtain ⟨s2, hs2, hid, hmemids⟩ :=
      loop_creates tick agenda cs (st.schools, st.agents, []) cl hcl hlen
        hnodup hnot
    refine ⟨s2, (hmemres s2).2 ⟨hs2, fun _ => ?_⟩, hid, hmemids⟩
    exact hid ▸ mem_detectedSchoolIds cs cl hcl hlen

/-- Uniform concrete agent used in school scenarios. -/
def agentD (i : Nat) : PAgent :=
  { unique_id := i, persona := "Stoic", belief_vector := [0],
    influence := 1, school_id := none, last_activity_tick := 0 }

/-- Concrete state for the C3 witness: three agents, empty registries. -/
def stW3 : ModelState :=
  { essays := [], critiques := [], schools := [],
    agents := [agentD 1, agentD 2, agentD 3] }

/-- Witness for C3 (amended) at a concrete input: a fresh detected cluster
    of three agents creates a school with exactly that membership. -/
theorem schools_recompute_amended_witness :
    3 ≤ stW3.agents.length ∧
    ∃ s2 ∈ (detect_and_update_schools stW3 [("c0", [1, 2, 3])] 6 []).schools,
      s2.id = "school_" ++ "c0" ∧ s2.member_ids = [1, 2, 3] :=
  ⟨by decide,
    (schools_recompute_amended stW3 [("c0", [1, 2, 3])] 6 [] (by decide)
      (by simp)).2.2 ("c0", [1, 2, 3]) (List.mem_singleton_self _) (by decide)
      (by simp [stW3])⟩

/-- A pre-existing school whose id reappears in the next detection result. -/
def schoolOld : School :=
  { id := "school_school_0", manifesto := "", member_ids := [1, 2, 3],
    doctrine_vector := [0], founding_tick := 0 }

/-- Concrete state for the C3/C4 counterexamples: six agents and a
    registry already holding school_school_0 with members 1,2,3. -/
def stC3 : ModelState :=
  { essays := [], critiques := [], schools := [schoolOld],
    agents := [agentD 1, agentD 2, agentD 3, agentD 4, agentD 5, agentD 6] }

/-- Counterexample to C3 as stated: the detection result maps school id
    school_school_0 to members [4, 5, 6], yet after the update the registry
    still holds [1, 2, 3] for that id — the member list of a school whose
    id reappears is not replaced. -/
theorem schools_not_replaced_counterexample :
    ((detect_and_update_schools stC3 [("school_0", [4, 5, 6])] 6 []).schools.map
        (fun s => (s.id, s.member_ids)))
      = [("school_school_0", [1, 2, 3])] ∧
    ([1, 2, 3] : List Nat) ≠ [4, 5, 6] :=
  ⟨rfl, by decide⟩

/-- The only way _detect_and_update_schools touches an agent: either it is
    left alone, or its school_id is set to one of the prefixed ids of the
    detection result's size-passing clusters.  In particular school_id is
    never reset to none. -/
def schoolReassign (clusters : List (String × List Nat)) (a a2 : PAgent) :
    Prop :=
  a2 = a ∨ ∃ sid ∈ detectedSchoolIds clusters,
    a2 = { a with school_id := some sid }

theorem forall2_updateFirstAgent (clusters : List (String × List Nat))
    (sid : String) (hsid : sid ∈ detectedSchoolIds clusters) (i : Nat) :
    ∀ (base cur : List PAgent),
    List.Forall₂ (schoolReassign clusters) base cur →
    List.Forall₂ (schoolReassign clusters) base
      (updateFirstAgent cur i
        (fun a => if a.school_id = some sid then a
                  else { a with school_id := some sid })) := by
  intro base cur h
  induction h with
  | nil => exact List.Forall₂.nil
  | cons hR h ih =>
    rename_i b c bs cs
    simp only [updateFirstAgent]
    by_cases hc : c.unique_id = i
    · rw [if_pos hc]
      refine List.Forall₂.cons ?_ h
      by_cases hcs : c.school_id = some sid
      · rw [if_pos hcs]
        exact hR
      · rw [if_neg hcs]
        rcases hR with rfl | ⟨sid2, hsid2, rfl⟩
        · exact Or.inr ⟨sid, hsid, rfl⟩
        · exact Or.inr ⟨sid, hsid, rfl⟩
    · rw [if_neg hc]
      exact List.Forall₂.cons hR ih

theorem forall2_assignMembers (clusters : List (String × List Nat))
    (sid : String) (hsid : sid ∈ detectedSchoolIds clusters) :
    ∀ (member_ids : List Nat) (base cur : List PAgent),
    List.Forall₂ (schoolReassign clusters) base cur →
    List.Forall₂ (schoolReassign clusters) base
      (assignMembers cur sid member_ids) := by
  intro member_ids
  induction member_ids with
  | nil => intro base cur h; exact h
  | cons m ms ih =>
    intro base cur h
    exact ih base _ (forall2_updateFirstAgent clusters sid hsid m base cur h)

theorem schoolClusterStep_agents (tick : Nat) (agenda : List (String × ℚ))
    (acc : List School × List PAgent × List String) (cl : String × List Nat) :
    (schoolClusterStep tick agenda acc cl).2.1
      = if cl.2.length ≥ 3 then
          assignMembers acc.2.1 ("school_" ++ cl.1) cl.2
        else acc.2.1 := by
  unfold schoolClusterStep
  by_cases hlen : cl.2.length ≥ 3
  · rw [if_pos hlen, if_pos hlen]
  · rw [if_neg hlen, if_neg hlen]

theorem forall2_loop (clusters : List (String × List Nat)) (tick : Nat)
    (agenda : List (String × ℚ)) :
    ∀ (cs : List (String × List Nat))
      (acc : List School × List PAgent × List String) (base : List PAgent),
    (∀ cl ∈ cs, cl ∈ clusters) →
    List.Forall₂ (schoolReassign clusters) base acc.2.1 →
    List.Forall₂ (schoolReassign clusters) base
      (List.foldl (schoolClusterStep tick agenda) acc cs).2.1 := by
  intro cs
  induction cs with
  | nil => intro acc base _ h; exact h
  | cons cl rest ih =>
    intro acc base hsub h
    simp only [List.foldl_cons]
    refine ih _ base (fun c hc => hsub c (List.mem_cons_of_mem _ hc)) ?_
    rw [schoolClusterStep_agents]
    by_cases hlen : cl.2.length ≥ 3
    · rw [if_pos hlen]
      exact forall2_assignMembers clusters _
        (mem_detectedSchoolIds clusters cl
          (hsub cl (List.mem_cons_self _ _)) hlen) cl.2 base _ h
    · rw [if_neg hlen]
      exact h

/-- Dangling-pointer scenario: agent 1 is a member of a school that the
    next detection result no longer contains. -/
def agentE : PAgent :=
  { unique_id := 1, persona := "Kantian", belief_vector := [0],
    influence := 1, school_id := some "school_old",
    last_activity_tick := 0 }

/-- The soon-defunct school for the dangling-pointer scenario. -/
def schoolOldE : School :=
  { id := "school_old", manifesto := "", member_ids := [1],
    doctrine_vector := [0], founding_tick := 0 }

/-- Concrete state for the C10 dangling-pointer scenario. -/
def stDang : ModelState :=
  { essays := [], critiques := [], schools := [schoolOldE],
    agents := [agentE, agentD 2, agentD 3, agentD 4] }

/-- Claim C10: _detect_and_update_schools only ever sets an agent's
    school_id to one of the prefixed ids of the detection result's
    size-passing clusters and never resets it to none; agents left out of
    the new detection keep their previous school_id, which may point at a
    school that was just deleted from the registry (concrete second
    conjunct: agent 1 still carries school_old after that school is
    removed). -/
theorem school_update_frame (st : ModelState)
    (clusters : List (String × List Nat)) (tick : Nat)
    (agenda : List (String × ℚ)) :
    List.Forall₂ (schoolReassign clusters) st.agents
      (detect_and_update_schools st clusters tick agenda).agents ∧
    (((detect_and_update_schools stDang [("g0", [2, 3, 4])] 6 []).agents.map
        (fun a => a.school_id))
      = [some "school_old", some "school_g0", some "school_g0",
         some "school_g0"] ∧
     ((detect_and_update_schools stDang [("g0", [2, 3, 4])] 6 []).schools.map
        (fun s => s.id)) = ["school_g0"]) := by
  refine ⟨?_, rfl, rfl⟩
  by_cases hlt : st.agents.length < 3
  · unfold detect_and_update_schools
    rw [if_pos hlt]
    exact List.forall₂_same.2 (fun a _ => Or.inl rfl)
  · rw [detect_and_update_schools_agents_eq st clusters tick agenda hlt]
    exact forall2_loop clusters tick agenda clusters
      (st.schools, st.agents, []) st.agents (fun _ h => h)
      (List.forall₂_same.2 (fun a _ => Or.inl rfl))

/-! ### Disjointness of the merge pass (C4) -/

theorem growGroup_foldl_perm (sim : Nat → Nat → ℚ) (thr : ℚ) :
    ∀ (cands g0 r0 : List Nat),
    (((List.foldl
        (fun gr cand =>
          if avgSimilarity sim cand gr.1 > thr then (gr.1 ++ [cand], gr.2)
          else (gr.1, gr.2 ++ [cand]))
        (g0, r0) cands).1 ++
      (List.foldl
        (fun gr cand =>
          if avgSimilarity sim cand gr.1 > thr then (gr.1 ++ [cand], gr.2)
          else (gr.1, gr.2 ++ [cand]))
        (g0, r0) cands).2)).Perm (g0 ++ r0 ++ cands) := by
  intro cands
  induction cands with
  | nil => intro g0 r0; simp
  | cons c cs ih =>
    intro g0 r0
    simp only [List.foldl_cons]
    by_cases h : avgSimilarity sim c g0 > thr
    · rw [if_pos h]
      refine (ih (g0 ++ [c]) r0).trans ?_
      have h1 : (g0 ++ [c]) ++ r0 ++ cs = g0 ++ (c :: (r0 ++ cs)) := by
        simp [List.append_assoc]
      rw [h1]
      have h2 : g0 ++ r0 ++ (c :: cs) = g0 ++ (r0 ++ (c :: cs)) := by
        simp [List.append_assoc]
      rw [h2]
      exact List.Perm.append_left g0 List.perm_middle.symm
    · rw [if_neg h]
      refine (ih g0 (r0 ++ [c])).trans ?_
      have h1 : g0 ++ (r0 ++ [c]) ++ cs = g0 ++ r0 ++ (c :: cs) := by
        simp [List.append_assoc]
      rw [h1]

theorem growGroup_perm (sim : Nat → Nat → ℚ) (thr : ℚ) (cands : List Nat)
    (seed : Nat) :
    ((growGroup sim thr cands [seed]).1 ++
      (growGroup sim thr cands [seed]).2).Perm (seed :: cands) := by
  have h := growGroup_foldl_perm sim thr cands [seed] []
  simpa [growGroup] using h

theorem fcg_eq_small (sim : Nat → Nat → ℚ) (m : Nat) (thr : ℚ)
    (rem : List Nat) (h : rem.length < m) :
    find_cohesive_groups sim m thr rem = [] := by
  unfold find_cohesive_groups
  rw [if_pos h]

theorem fcg_nil (sim : Nat → Nat → ℚ) (m : Nat) (thr : ℚ) :
    find_cohesive_groups sim m thr [] = [] := by
  unfold find_cohesive_groups
  split <;> rfl

theorem fcg_eq_cons (sim : Nat → Nat → ℚ) (m : Nat) (thr : ℚ)
    (seed : Nat) (rest0 : List Nat) (h : ¬ (seed :: rest0).length < m) :
    find_cohesive_groups sim m thr (seed :: rest0)
      = (if (growGroup sim thr rest0 [seed]).1.length ≥ m then
           (growGroup sim thr rest0 [seed]).1 ::
             find_cohesive_groups sim m thr (growGroup sim thr rest0 [seed]).2
         else
           find_cohesive_groups sim m thr
             ((growGroup sim thr rest0 [seed]).2 ++
               (growGroup sim thr rest0 [seed]).1.drop 1)) := by
  conv_lhs => unfold find_cohesive_groups
  rw [if_neg h]

theorem fcg_props (sim : Nat → Nat → ℚ) (m : Nat) (thr : ℚ) :
    ∀ (n : Nat) (rem : List Nat), rem.length ≤ n → rem.Nodup →
      (∀ g ∈ find_cohesive_groups sim m thr rem, ∀ x ∈ g, x ∈ rem) ∧
      List.Pairwise (fun g1 g2 => ∀ x ∈ g1, ¬ x ∈ g2)
        (find_cohesive_groups sim m thr rem) := by
  intro n
  induction n with
  | zero =>
    intro rem hlen _
    have : rem = [] := List.length_eq_zero.1 (Nat.le_zero.1 hlen)
    subst this
    rw [fcg_nil]
    exact ⟨by simp, List.Pairwise.nil⟩
  | succ n ih =>
    intro rem hlen hnd
    by_cases hsmall : rem.length < m
    · rw [fcg_eq_small sim m thr rem hsmall]
      exact ⟨by simp, List.Pairwise.nil⟩
    · cases rem with
      | nil =>
        rw [fcg_nil]
        exact ⟨by simp, List.Pairwise.nil⟩
      | cons seed rest0 =>
        rw [fcg_eq_cons sim m thr seed rest0 hsmall]
        have hperm := growGroup_perm sim thr rest0 seed
        have hnd2 : ((growGroup sim thr rest0 [seed]).1 ++
            (growGroup sim thr rest0 [seed]).2).Nodup :=
          (hperm.nodup_iff).2 hnd
        rw [List.nodup_append] at hnd2
        obtain ⟨hnd_g, hnd_r, hdisj⟩ := hnd2
        have hmemperm : ∀ x, x ∈ (growGroup sim thr rest0 [seed]).1 ++
            (growGroup sim thr rest0 [seed]).2 ↔ x ∈ seed :: rest0 :=
          fun x => hperm.mem_iff
        have hlensum : (growGroup sim thr rest0 [seed]).1.length +
            (growGroup sim thr rest0 [seed]).2.length
              = 1 + rest0.length := by
          have h := growGroup_length sim thr rest0 [seed] []
          simpa [growGroup] using h
        have hge1 : 1 ≤ (growGroup sim thr rest0 [seed]).1.length := by
          have h := growGroup_fst_length_ge sim thr rest0 [seed] []
          simpa [growGroup] using h
        have hlen1 : (seed :: rest0).length ≤ n + 1 := hlen
        simp only [List.length_cons] at hlen1
        by_cases hbig : (growGroup sim thr rest0 [seed]).1.length ≥ m
        · rw [if_pos hbig]
          have hlen2 : (growGroup sim thr rest0 [seed]).2.length ≤ n := by
            omega
          obtain ⟨ihsub, ihpw⟩ := ih _ hlen2 hnd_r
          constructor
          · intro g hg x hx
            rcases List.mem_cons.1 hg with rfl | hg2
            · exact (hmemperm x).1 (List.mem_append_left _ hx)
            · exact (hmemperm x).1 (List.mem_append_right _ (ihsub g hg2 x hx))
          · refine List.Pairwise.cons ?_ ihpw
            intro g hg x hx hxg
            exact hdisj hx (ihsub g hg x hxg)
        · rw [if_neg hbig]
          have hsub_drop : ((growGroup sim thr rest0 [seed]).1.drop 1)
              ⊆ (growGroup sim thr rest0 [seed]).1 :=
            (List.drop_sublist 1 _).subset
          have hnd_drop : ((growGroup sim thr rest0 [seed]).1.drop 1).Nodup :=
            (List.drop_sublist 1 _).nodup hnd_g
          have hnd3 : ((growGroup sim thr rest0 [seed]).2 ++
              (growGroup sim thr rest0 [seed]).1.drop 1).Nodup := by
            rw [List.nodup_append]
            exact ⟨hnd_r, hnd_drop,
              fun x hx hx2 => hdisj (hsub_drop hx2) hx⟩
          have hlen3 : ((growGroup sim thr rest0 [seed]).2 ++
              (growGroup sim thr rest0 [seed]).1.drop 1).length ≤ n := by
            simp only [List.length_append, List.length_drop]
            omega
          obtain ⟨ihsub, ihpw⟩ := ih _ hlen3 hnd3
          constructor
          · intro g hg x hx
            have hx2 := ihsub g hg x hx
            rcases List.mem_append.1 hx2 with hx3 | hx3
            · exact (hmemperm x).1 (List.mem_append_right _ hx3)
            · exact (hmemperm x).1 (List.mem_append_left _ (hsub_drop hx3))
          · exact ihpw

theorem mergePhase1_props (m : Nat) :
    ∀ (cs : List (String × List Nat)) (used : List Nat) (counter : Nat),
    (∀ x ∈ used, x ∈ (mergePhase1 m cs used counter).2.1) ∧
    (∀ g ∈ (mergePhase1 m cs used counter).1,
       (∀ x ∈ g.2, ¬ x ∈ used) ∧
       (∀ x ∈ g.2, x ∈ (mergePhase1 m cs used counter).2.1)) ∧
    List.Pairwise (fun c1 c2 => ∀ x ∈ c1.2, ¬ x ∈ c2.2)
      (mergePhase1 m cs used counter).1 := by
  intro cs
  induction cs with
  | nil =>
    intro used counter
    exact ⟨fun x hx => hx, by simp [mergePhase1], by simp [mergePhase1]⟩
  | cons cl rest ih =>
    intro used counter
    simp only [mergePhase1]
    by_cases hava :
        (cl.2.filter (fun m2 => ¬ m2 ∈ used)).length ≥ m
    · rw [if_pos hava]
      obtain ⟨ihused, ihgr, ihpw⟩ := ih (used ++ cl.2.filter (fun m2 => ¬ m2 ∈ used)) (counter + 1)
      refine ⟨?_, ?_, ?_⟩
      · intro x hx
        exact ihused x (List.mem_append_left _ hx)
      · intro g hg
        rcases List.mem_cons.1 hg with rfl | hg2
        · constructor
          · intro x hx
            have := List.of_mem_filter hx
            simpa using this
          · intro x hx
            exact ihused x (List.mem_append_right _ hx)
        · obtain ⟨hgr1, hgr2⟩ := ihgr g hg2
          exact ⟨fun x hx hxu => hgr1 x hx (List.mem_append_left _ hxu), hgr2⟩
      · refine List.Pairwise.cons ?_ ihpw
        intro g hg x hx hxg
        obtain ⟨hgr1, _⟩ := ihgr g hg
        exact hgr1 x hxg (List.mem_append_right _ hx)
    · rw [if_neg hava]
      exact ih used counter

theorem numberGroups_mem (counter : Nat) (gs : List (List Nat)) :
    ∀ e ∈ numberGroups counter gs, e.2 ∈ gs := by
  induction gs generalizing counter with
  | nil => simp [numberGroups]
  | cons g rest ih =>
    intro e he
    simp only [numberGroups, List.mem_cons] at he
    rcases he with rfl | he2
    · exact List.mem_cons_self _ _
    · exact List.mem_cons_of_mem _ (ih (counter + 1) e he2)

theorem numberGroups_pairwise (gs : List (List Nat))
    (h : List.Pairwise (fun g1 g2 => ∀ x ∈ g1, ¬ x ∈ g2) gs) :
    ∀ counter, List.Pairwise (fun c1 c2 => ∀ x ∈ c1.2, ¬ x ∈ c2.2)
      (numberGroups counter gs) := by
  induction h with
  | nil => intro counter; simp [numberGroups]
  | cons hg hrest ih =>
    intro counter
    simp only [numberGroups]
    refine List.Pairwise.cons ?_ (ih (counter + 1))
    intro e he
    rename_i g rest
    exact hg e.2 (numberGroups_mem (counter + 1) rest e he)

/-- Claim C4 core lemma: the groups returned by one _merge_clusters pass
    are pairwise disjoint (members already claimed are skipped in phase 1,
    and the cohesive-group phase partitions the still unclaimed agents). -/
theorem merge_clusters_pairwise (m : Nat) (sim : Nat → Nat → ℚ)
    (all_clusters : List (String × List Nat)) (agent_ids : List Nat)
    (hnd : agent_ids.Nodup) :
    List.Pairwise (fun c1 c2 => ∀ x ∈ c1.2, ¬ x ∈ c2.2)
      (merge_clusters m sim all_clusters agent_ids) := by
  unfold merge_clusters
  by_cases hempty : all_clusters = []
  · rw [if_pos hempty]
    exact List.Pairwise.nil
  · rw [if_neg hempty]
    obtain ⟨p1used, p1gr, p1pw⟩ := mergePhase1_props m all_clusters [] 0
    by_cases hrem :
        (agent_ids.filter
          (fun a => ¬ a ∈ (mergePhase1 m all_clusters [] 0).2.1)).length ≥ m
    · rw [if_pos hrem]
      have hndrem : (agent_ids.filter
          (fun a => ¬ a ∈ (mergePhase1 m all_clusters [] 0).2.1)).Nodup :=
        hnd.filter _
      obtain ⟨fsub, fpw⟩ := fcg_props sim m (7/10) _ _ (le_refl _) hndrem
      rw [List.pairwise_append]
      refine ⟨p1pw, ?_, ?_⟩
      · exact numberGroups_pairwise _ (fpw.filter _) _
      · intro c1 hc1 c2 hc2 x hx1 hx2
        have hxused : x ∈ (mergePhase1 m all_clusters [] 0).2.1 :=
          (p1gr c1 hc1).2 x hx1
        have hg2 : c2.2 ∈ (find_cohesive_groups sim m (7/10)
            (agent_ids.filter
              (fun a => ¬ a ∈ (mergePhase1 m all_clusters [] 0).2.1))).filter
            (fun g => g.length ≥ m) :=
          numberGroups_mem _ _ c2 hc2
        have hg2b := List.mem_of_mem_filter hg2
        have hxrem := fsub c2.2 hg2b x hx2
        have hnot := List.of_mem_filter hxrem
        simp only [decide_eq_true_eq] at hnot
        exact hnot hxused
    · rw [if_neg hrem]
      exact p1pw

/-- Pairwise disjointness of the groups of a full detect_schools output. -/
theorem detect_schools_pairwise (m : Nat) (sim : Nat → Nat → ℚ)
    (graph_clusters belief_clusters : List (String × List Nat))
    (agent_ids : List Nat) (hnd : agent_ids.Nodup) :
    List.Pairwise (fun c1 c2 => ∀ x ∈ c1.2, ¬ x ∈ c2.2)
      (detect_schools m sim graph_clusters belief_clusters agent_ids) := by
  unfold detect_schools
  by_cases h : agent_ids.length < m
  · rw [if_pos h]
    exact List.Pairwise.nil
  · rw [if_neg h]
    exact merge_clusters_pairwise m sim _ agent_ids hnd

theorem loop_pairwise_schools (tick : Nat) (agenda : List (String × ℚ)) :
    ∀ (cs : List (String × List Nat))
      (acc : List School × List PAgent × List String),
    List.Pairwise (fun c1 c2 => ∀ x ∈ c1.2, ¬ x ∈ c2.2) cs →
    List.Pairwise (fun s1 s2 => ∀ x ∈ s1.member_ids, ¬ x ∈ s2.member_ids)
      acc.1 →
    (∀ s ∈ acc.1, ∀ cl ∈ cs, ∀ x ∈ s.member_ids, ¬ x ∈ cl.2) →
    List.Pairwise (fun s1 s2 => ∀ x ∈ s1.member_ids, ¬ x ∈ s2.member_ids)
      (List.foldl (schoolClusterStep tick agenda) acc cs).1 := by
  intro cs
  induction cs with
  | nil => intro acc _ hacc _; exact hacc
  | cons cl rest ih =>
    intro acc hpw hacc hcross
    rw [List.pairwise_cons] at hpw
    obtain ⟨hhead, htail⟩ := hpw
    simp only [List.foldl_cons]
    rcases schoolClusterStep_schools tick agenda acc cl with
      heq | ⟨s, heq, _, hmem, _⟩
    · refine ih _ htail (heq ▸ hacc) ?_
      intro s2 hs2 cl2 hcl2
      rw [heq] at hs2
      exact hcross s2 hs2 cl2 (List.mem_cons_of_mem _ hcl2)
    · refine ih _ htail ?_ ?_
      · rw [heq, List.pairwise_append]
        refine ⟨hacc, List.pairwise_singleton _ _, ?_⟩
        intro s1 hs1 s2 hs2 x hx
        rw [List.mem_singleton.1 hs2, hmem]
        exact hcross s1 hs1 cl (List.mem_cons_self _ _) x hx
      · intro s2 hs2 cl2 hcl2
        rw [heq] at hs2
        rcases List.mem_append.1 hs2 with hs3 | hs3
        · exact hcross s2 hs3 cl2 (List.mem_cons_of_mem _ hcl2)
        · rw [List.mem_singleton.1 hs3, hmem]
          exact fun x hx => hhead cl2 hcl2 x hx

/-- Claim C4 (amended): the groups of one detect_schools result are
    pairwise disjoint, and when the schools registry is empty before the
    update call, no agent id appears in more than one school member list of
    the resulting registry.  (With a nonempty prior registry this can fail:
    a school whose id reappears keeps its stale member list.) -/
theorem school_registry_disjoint_amended (st : ModelState) (tick : Nat)
    (agenda : List (String × ℚ)) (sim : Nat → Nat → ℚ)
    (graph_clusters belief_clusters : List (String × List Nat))
    (agent_ids : List Nat) (clusters : List (String × List Nat))
    (hnd : agent_ids.Nodup)
    (hdet : clusters
      = detect_schools 3 sim graph_clusters belief_clusters agent_ids)
    (hempty : st.schools = []) :
    List.Pairwise (fun c1 c2 => ∀ x ∈ c1.2, ¬ x ∈ c2.2) clusters ∧
    List.Pairwise (fun s1 s2 => ∀ x ∈ s1.member_ids, ¬ x ∈ s2.member_ids)
      (detect_and_update_schools st clusters tick agenda).schools := by
  have hpw : List.Pairwise (fun c1 c2 => ∀ x ∈ c1.2, ¬ x ∈ c2.2) clusters :=
    hdet ▸ detect_schools_pairwise 3 sim graph_clusters belief_clusters
      agent_ids hnd
  refine ⟨hpw, ?_⟩
  by_cases hlt : st.agents.length < 3
  · unfold detect_and_update_schools
    rw [if_pos hlt, hempty]
    exact List.Pairwise.nil
  · rw [detect_and_update_schools_schools_eq st clusters tick agenda hlt]
    refine List.Pairwise.sublist (List.filter_sublist _) ?_
    refine loop_pairwise_schools tick agenda clusters
      (st.schools, st.agents, []) hpw ?_ ?_
    · rw [hempty]
      exact List.Pairwise.nil
    · rw [hempty]
      intro s hs
      simp at hs

/-- Constant zero similarity oracle, used by concrete witnesses. -/
def simZ : Nat → Nat → ℚ := fun _ _ => 0

/-- Witness for C4 (amended) at a concrete input: one graph cluster of
    three agents, empty registry before the call. -/
theorem school_registry_disjoint_amended_witness :
    ([1, 2, 3] : List Nat).Nodup ∧
    List.Pairwise (fun s1 s2 => ∀ x ∈ s1.member_ids, ¬ x ∈ s2.member_ids)
      (detect_and_update_schools stW3 [("school_0", [1, 2, 3])] 6 []).schools :=
  ⟨by decide,
    (school_registry_disjoint_amended stW3 6 [] simZ
      [("graph_0", [1, 2, 3])] [] [1, 2, 3] [("school_0", [1, 2, 3])]
      (by decide) rfl rfl).2⟩

/-- Counterexample to C4 as stated: starting from a registry holding
    school_school_0 with members [1, 2, 3], a detection result mapping
    school_0 to [4, 5, 6] and school_1 to [1, 2, 3] leaves school_school_0
    with its stale members [1, 2, 3] and creates school_school_1 with
    members [1, 2, 3]; agents 1, 2, 3 then sit in the member lists of two
    distinct schools of the registry. -/
theorem school_member_overlap_counterexample :
    ((detect_and_update_schools stC3
        [("school_0", [4, 5, 6]), ("school_1", [1, 2, 3])] 6 []).schools.map
      (fun s => (s.id, s.member_ids)))
      = [("school_school_0", [1, 2, 3]), ("school_school_1", [1, 2, 3])] ∧
    (1 : Nat) ∈ ([1, 2, 3] : List Nat) ∧
    "school_school_0" ≠ "school_school_1" :=
  ⟨rfl, by decide, by decide⟩

end PhilSoc
